import Mathlib

/-!
Verification development for the PoBA (Proof-of-Beneficial-Assignment)
crowd-shipping system: the on-chain proposal ledger (`pallets/poba`), the
escrow lifecycle ledger (`pallets/escrow`), the winner-validation routine of
the ink escrow contract (`contracts/escrow/lib.rs`), and the off-chain
matching worker (`node/src/poba_worker.rs`).

Modelling conventions:
* FRAME storage maps become functions `Nat → Option _`; `[u8; 16]` uuids and
  `AccountId`s become `Nat` (only decidable equality of identifiers is used).
* Dispatchable calls become pure functions `State → Except Error (State × List Event)`;
  a dispatch error in FRAME rolls back every storage write of the call, so an
  `Except.error` result carries no state, which models "no state mutation".
* `u64`/`u128` wrapping and saturating arithmetic is made explicit
  (`% 2 ^ 64`, capped addition); `i64` values become unbounded `Int` (the
  claims under study do not hinge on 64-bit overflow).
* `f64` quantities of the worker become `ℚ`, and the transcendental haversine
  distance is a function parameter of the matching engine; the concrete
  scenarios of the claims all use all-zero coordinates, for which the source
  never calls the haversine at all.
-/

/-- Pointwise update of a storage map, used to model `StorageMap::insert`
and `StorageMap::remove` (with `v = none`). -/
def upd {α : Type} (f : Nat → Option α) (k : Nat) (v : Option α) : Nat → Option α :=
  fun x => if x = k then v else f x

theorem upd_same {α : Type} (f : Nat → Option α) (k : Nat) (v : Option α) :
    upd f k v k = v := by
  simp [upd]

theorem upd_other {α : Type} (f : Nat → Option α) (k x : Nat) (v : Option α)
    (h : x ≠ k) : upd f k v x = f x := by
  simp [upd, h]

/-! ## The PoBA proposal ledger (`pallets/poba/src/lib.rs`) -/

/-- A single matched pair, `pallets/poba`'s `Match` struct.  `pair_score`
models the source field holding the per-pair score contribution (an `i64`). -/
structure PMatch where
  request_uuid : Nat
  offer_uuid : Nat
  agreed_price_cents : Nat
  pair_score : Int
deriving DecidableEq

/-- Upper bound `MAX_MATCHES_PER_PROPOSAL` on matches per proposal. -/
def MAX_MATCHES_PER_PROPOSAL : Nat := 256

/-- A stored proposal (`Proposal` struct): declared total score plus matches. -/
structure Proposal where
  total_score : Int
  matches' : List PMatch
deriving DecidableEq

/-- The poba pallet's storage: `BestProposal`, `FinalizedProposal` (both
slot-keyed maps) and `LastFinalizedSlot` (a `u64` value, `ValueQuery`
defaulting to 0). -/
structure PobaState where
  bestProposal : Nat → Option Proposal
  finalizedProposal : Nat → Option Proposal
  lastFinalizedSlot : Nat

/-- Genesis poba storage: both maps empty, `LastFinalizedSlot = 0`. -/
def poba0 : PobaState :=
  { bestProposal := fun _ => none
    finalizedProposal := fun _ => none
    lastFinalizedSlot := 0 }

/-- The poba pallet's error enum.  Note the source declares only these three
variants: there is no `SlotAlreadyFinalized` and no `InvalidWinner`. -/
inductive PobaError
  | TooManyMatches
  | NoProposalForSlot
  | EmptyMatches
deriving DecidableEq

/-- The poba pallet's events. -/
inductive PobaEvent
  | ProposalSubmitted (slot : Nat) (total_score : Int) (matches' : Nat) (proposer : Nat)
  | SlotFinalized (slot : Nat) (total_score : Int) (matches' : Nat)
deriving DecidableEq

/-- `submit_proposal` of `pallets/poba`: reject more than 256 matches
(`TooManyMatches`, from the failing `BoundedVec::try_from`), reject an empty
list (`EmptyMatches`), then install the proposal if the slot has no best yet,
or replace the existing best iff the new `total_score` is strictly greater.
A `ProposalSubmitted` event is always deposited on success. -/
def submit_proposal (who slot : Nat) (total_score : Int) (matches' : List PMatch)
    (st : PobaState) : Except PobaError (PobaState × List PobaEvent) :=
  if MAX_MATCHES_PER_PROPOSAL < matches'.length then .error .TooManyMatches
  else if matches'.isEmpty then .error .EmptyMatches
  else
    let proposal : Proposal := ⟨total_score, matches'⟩
    let st' :=
      match st.bestProposal slot with
      | some existing =>
          if existing.total_score < total_score then
            { st with bestProposal := upd st.bestProposal slot (some proposal) }
          else st
      | none => { st with bestProposal := upd st.bestProposal slot (some proposal) }
    .ok (st', [.ProposalSubmitted slot total_score matches'.length who])

/-- `finalize_slot` of `pallets/poba`: `BestProposal::take(slot)` (read and
remove), error `NoProposalForSlot` if absent or empty, otherwise write the
winner to `FinalizedProposal`, set `LastFinalizedSlot := slot` and emit
`SlotFinalized`.  The source performs no further validation of the winner. -/
def finalize_slot (slot : Nat) (st : PobaState) :
    Except PobaError (PobaState × List PobaEvent) :=
  match st.bestProposal slot with
  | none => .error .NoProposalForSlot
  | some winner =>
      if winner.matches'.isEmpty then .error .NoProposalForSlot
      else
        .ok ({ bestProposal := upd st.bestProposal slot none
               finalizedProposal := upd st.finalizedProposal slot (some winner)
               lastFinalizedSlot := slot },
             [.SlotFinalized slot winner.total_score winner.matches'.length])

/-! ## Winner validation of the ink escrow contract (`contracts/escrow/lib.rs`) -/

/-- `AssignmentInput` of the ink escrow contract: `request_id : u128`,
`driver : AccountId`, `pair_score : u128`. -/
structure AssignmentInput where
  request_id : Nat
  driver : Nat
  pair_score : Nat
deriving DecidableEq

/-- `u128::saturating_add`. -/
def satAddU128 (a b : Nat) : Nat := min (a + b) (2 ^ 128 - 1)

/-- The contract's O(n²) duplicate-`request_id` scan (the nested loops of
`validate_winner`): is some `request_id` repeated? -/
def hasDupRequestId : List AssignmentInput → Bool
  | [] => false
  | a :: rest => rest.any (fun b => a.request_id == b.request_id) || hasDupRequestId rest

/-- `validate_winner` of the ink escrow contract: true iff no `request_id`
repeats and the declared total equals the saturating sum of `pair_score`s.
Driver (offer-side) duplicates are deliberately allowed by the source, and
nothing in the poba pallet invokes this function. -/
def validate_winner (winner_total_score : Nat) (assignments : List AssignmentInput) : Bool :=
  if hasDupRequestId assignments then false
  else
    let computed := assignments.foldl (fun acc a => satAddU128 acc a.pair_score) 0
    computed == winner_total_score

/-! ## The escrow pallet (`pallets/escrow/src/lib.rs`) -/

/-- `DeliveryStatus` of the escrow pallet. -/
inductive DeliveryStatus
  | Created
  | PickedUpByCourier
  | DeliveredByCourier
  | ConfirmedByReceiver
  | TimeoutReleased
  | Cancelled
  | Failed
deriving DecidableEq

/-- `is_final_status`: the four terminal states. -/
def is_final_status : DeliveryStatus → Bool
  | .ConfirmedByReceiver => true
  | .TimeoutReleased => true
  | .Cancelled => true
  | .Failed => true
  | _ => false

/-- `AssignmentEscrow` record. -/
structure AssignmentEscrow where
  request_uuid : Nat
  offer_uuid : Nat
  driver : Nat
  payer : Nat
  amount : Nat
  status : DeliveryStatus
  created_at : Nat
  deadline : Nat
deriving DecidableEq

/-- Escrow pallet storage: `NextEscrowId`, `Escrows`, `RequestToEscrow`. -/
structure EscrowState where
  nextEscrowId : Nat
  escrows : Nat → Option AssignmentEscrow
  requestToEscrow : Nat → Option Nat

/-- Genesis escrow storage. -/
def escrow0 : EscrowState :=
  { nextEscrowId := 0, escrows := fun _ => none, requestToEscrow := fun _ => none }

/-- The escrow pallet's error enum. -/
inductive EscrowError
  | RequestAlreadyAssigned
  | EscrowNotFound
  | EscrowAlreadyFinal
  | NotDriver
  | NotPayer
  | InvalidStatusTransition
  | ZeroAmountNotAllowed
  | TimeoutNotReached
deriving DecidableEq

/-- The escrow pallet's events. -/
inductive EscrowEvent
  | EscrowCreated (escrow_id request_uuid offer_uuid driver payer amount deadline : Nat)
  | PickedUp (escrow_id : Nat)
  | Delivered (escrow_id : Nat)
  | ReceiverConfirmed (escrow_id : Nat)
  | PaymentReleased (escrow_id : Nat) (amount : Nat)
deriving DecidableEq

/-- `create_escrow`: fail with `RequestAlreadyAssigned` if `RequestToEscrow`
already holds any entry for `request_uuid` (whatever the status of that
escrow), fail with `ZeroAmountNotAllowed` on `amount = 0`; otherwise allocate
`NextEscrowId` (wrapping `u64` increment), store the record with status
`Created`, `created_at = now`, `deadline = now + timeoutBlocks`, and index
`request_uuid → escrow_id`.  `now` is the current block number and
`timeoutBlocks` the runtime constant `ConfirmationTimeoutBlocks`. -/
def create_escrow (now timeoutBlocks : Nat) (request_uuid offer_uuid driver payer amount : Nat)
    (st : EscrowState) : Except EscrowError (EscrowState × List EscrowEvent) :=
  if (st.requestToEscrow request_uuid).isSome then .error .RequestAlreadyAssigned
  else if amount = 0 then .error .ZeroAmountNotAllowed
  else
    let deadline := now + timeoutBlocks
    let escrow_id := st.nextEscrowId
    let record : AssignmentEscrow :=
      { request_uuid := request_uuid, offer_uuid := offer_uuid, driver := driver
        payer := payer, amount := amount, status := .Created
        created_at := now, deadline := deadline }
    .ok ({ nextEscrowId := (st.nextEscrowId + 1) % 2 ^ 64
           escrows := upd st.escrows escrow_id (some record)
           requestToEscrow := upd st.requestToEscrow request_uuid (some escrow_id) },
         [.EscrowCreated escrow_id request_uuid offer_uuid driver payer amount deadline])

/-- `mark_picked_up`: only the stored driver, only from `Created`. -/
def mark_picked_up (who escrow_id : Nat) (st : EscrowState) :
    Except EscrowError (EscrowState × List EscrowEvent) :=
  match st.escrows escrow_id with
  | none => .error .EscrowNotFound
  | some e =>
      if is_final_status e.status then .error .EscrowAlreadyFinal
      else if who ≠ e.driver then .error .NotDriver
      else
        match e.status with
        | .Created =>
            let e' := { e with status := DeliveryStatus.PickedUpByCourier }
            .ok ({ st with escrows := upd st.escrows escrow_id (some e') }, [.PickedUp escrow_id])
        | _ => .error .InvalidStatusTransition

/-- `mark_delivered`: only the stored driver, only from `PickedUpByCourier`. -/
def mark_delivered (who escrow_id : Nat) (st : EscrowState) :
    Except EscrowError (EscrowState × List EscrowEvent) :=
  match st.escrows escrow_id with
  | none => .error .EscrowNotFound
  | some e =>
      if is_final_status e.status then .error .EscrowAlreadyFinal
      else if who ≠ e.driver then .error .NotDriver
      else
        match e.status with
        | .PickedUpByCourier =>
            let e' := { e with status := DeliveryStatus.DeliveredByCourier }
            .ok ({ st with escrows := upd st.escrows escrow_id (some e') }, [.Delivered escrow_id])
        | _ => .error .InvalidStatusTransition

/-- `confirm_received`: only the stored payer, only from `DeliveredByCourier`;
deposits `PaymentReleased` then `ReceiverConfirmed`. -/
def confirm_received (who escrow_id : Nat) (st : EscrowState) :
    Except EscrowError (EscrowState × List EscrowEvent) :=
  match st.escrows escrow_id with
  | none => .error .EscrowNotFound
  | some e =>
      if is_final_status e.status then .error .EscrowAlreadyFinal
      else if who ≠ e.payer then .error .NotPayer
      else
        match e.status with
        | .DeliveredByCourier =>
            let e' := { e with status := DeliveryStatus.ConfirmedByReceiver }
            .ok ({ st with escrows := upd st.escrows escrow_id (some e') },
                 [.PaymentReleased escrow_id e.amount, .ReceiverConfirmed escrow_id])
        | _ => .error .InvalidStatusTransition

/-- `release_escrow`: locate the escrow through `RequestToEscrow`, check the
stored `offer_uuid` matches, forbid final states, then set
`ConfirmedByReceiver`.  The `RequestToEscrow` index is left untouched. -/
def release_escrow (request_uuid offer_uuid : Nat) (st : EscrowState) :
    Except EscrowError (EscrowState × List EscrowEvent) :=
  match st.requestToEscrow request_uuid with
  | none => .error .EscrowNotFound
  | some escrow_id =>
      match st.escrows escrow_id with
      | none => .error .EscrowNotFound
      | some e =>
          if e.offer_uuid ≠ offer_uuid then .error .EscrowNotFound
          else if is_final_status e.status then .error .EscrowAlreadyFinal
          else
            let e' := { e with status := DeliveryStatus.ConfirmedByReceiver }
            .ok ({ st with escrows := upd st.escrows escrow_id (some e') },
                 [.PaymentReleased escrow_id e.amount, .ReceiverConfirmed escrow_id])

/-- `force_timeout_release`: any signed caller, non-terminal status, and the
current block number `now` must have reached the stored deadline. -/
def force_timeout_release (now escrow_id : Nat) (st : EscrowState) :
    Except EscrowError (EscrowState × List EscrowEvent) :=
  match st.escrows escrow_id with
  | none => .error .EscrowNotFound
  | some e =>
      if is_final_status e.status then .error .EscrowAlreadyFinal
      else if now < e.deadline then .error .TimeoutNotReached
      else
        let e' := { e with status := DeliveryStatus.TimeoutReleased }
        .ok ({ st with escrows := upd st.escrows escrow_id (some e') },
             [.PaymentReleased escrow_id e.amount])

/-! ## The finalizer side of the worker loop (`node/src/poba_worker.rs`, `run`) -/

/-- Outcome of the worker's `POST /poba/finalize-slot` HTTP call: either a
response arrived (with a success or non-success HTTP status), or the request
itself failed (transport error, the `Err(e)` arm of the match). -/
inductive FinalizeHttpOutcome
  | response (success : Bool)
  | transportFailure
deriving DecidableEq

/-- One pass through the finalize section of the worker loop, for a finalizer
node: compute `finalize_slot = slot.saturating_sub(lag_slots)`; if it is
positive and above `last_finalized_slot_local`, attempt the HTTP call and
return the new value of `last_finalized_slot_local`.  The source sets
`last_finalized_slot_local = finalize_slot` in the `Ok(resp)` arm regardless
of `resp.status()`, and leaves it unchanged only in the `Err` arm. -/
def finalizer_step (slot lag_slots last_finalized_slot_local : Nat)
    (outcome : FinalizeHttpOutcome) : Nat :=
  let fslot := slot - lag_slots
  if 0 < fslot ∧ last_finalized_slot_local < fslot then
    match outcome with
    | .response _ => fslot
    | .transportFailure => last_finalized_slot_local
  else last_finalized_slot_local

/-! ## The off-chain matching engine (`node/src/poba_worker.rs`) -/

/-- `MarketRequest` of the worker (uuid modelled as `Nat`, coordinates in
micro-degrees as `Int` for `i32`, prices and windows as `Nat` for
`u32`/`u64`). -/
structure MarketRequest where
  uuid_16 : Nat
  from_lat : Int
  from_lon : Int
  to_lat : Int
  to_lon : Int
  max_price_cents : Nat
  kind : Nat
  window_start : Nat
  window_end : Nat
deriving DecidableEq, Inhabited

/-- `MarketOffer` of the worker. -/
structure MarketOffer where
  uuid_16 : Nat
  min_price_cents : Nat
  from_lat : Int
  from_lon : Int
  to_lat : Int
  to_lon : Int
  window_start : Nat
  window_end : Nat
  types_mask : Nat
deriving DecidableEq, Inhabited

/-- `MatchItem` produced by the worker. -/
structure MatchItem where
  request_uuid : Nat
  offer_uuid : Nat
  agreed_price_cents : Nat
  pair_score : Int
deriving DecidableEq

/-- The worker's scoring/filter configuration (the `POBA_*` environment
variables read inside `compute_matches_for_market`).  `f64` parameters are
modelled as `ℚ`; a distance cap of value `≤ 0` means "disabled" (the source
turns the env value into an `Option` by testing `> 0.0`); the
`*_SEC → ms` conversions are already applied (the `i64` millisecond values
are what the source uses). -/
structure PobaParams where
  base_score : Int
  alpha_per_km : ℚ
  beta_per_cent : ℚ
  skip_cost : Int
  max_start_km : ℚ
  max_end_km : ℚ
  max_total_km : ℚ
  require_time_overlap : Bool
  min_overlap_ms : Int
  early_slack_ms : Int
  late_slack_ms : Int

/-- The defaults of all `POBA_*` tunables as hard-coded in the source. -/
def defaultParams : PobaParams :=
  { base_score := 1000000
    alpha_per_km := 1000
    beta_per_cent := 1
    skip_cost := 100000000
    max_start_km := 0
    max_end_km := 0
    max_total_km := 0
    require_time_overlap := true
    min_overlap_ms := 0
    early_slack_ms := 0
    late_slack_ms := 0 }

/-- `kind_to_bit`: request kind → bit in the offer's `types_mask`
(package → bit 0, passenger → bit 1, anything else → `0`). -/
def kind_to_bit (kind : Nat) : Nat :=
  match kind with
  | 0 => 1
  | 1 => 2
  | _ => 0

/-- `intervals_overlap_ms`: if any bound is zero the answer is
`!require_overlap`; otherwise expand the offer window by the slacks and
require the overlap length to reach `max 0 min_olap_ms`. -/
def intervals_overlap_ms (a_start a_end b_start b_end : Nat)
    (min_olap_ms early_slack_ms late_slack_ms : Int) (require_overlap : Bool) : Bool :=
  if a_start = 0 || a_end = 0 || b_start = 0 || b_end = 0 then
    !require_overlap
  else
    let a_s : Int := a_start
    let a_e : Int := a_end
    let b_s : Int := (b_start : Int) - early_slack_ms
    let b_e : Int := (b_end : Int) + late_slack_ms
    decide (max 0 min_olap_ms ≤ min a_e b_e - max a_s b_s)

/-- Rust's `f64::round` (half away from zero), on the `ℚ` model of `f64`. -/
def rustRound (q : ℚ) : Int :=
  if 0 ≤ q then ⌊q + 1/2⌋ else -⌊-q + 1/2⌋

/-- The solver's infinity constant `inf = 10_i64.pow(12)` marking infeasible
pairs in the cost table. -/
def infCost : Int := 10 ^ 12

/-- The agreed-price policy of the table-building loop (worker step 4):
midpoint of `o.min_price_cents` and `r.max_price_cents` when the request has
a price cap, otherwise the offer minimum; clamped below by 1 cent.  Rust's
`i64` division acts here on non-negative operands, where it coincides with
this model's integer division. -/
def agreed_price (req_max_cents off_min_cents : Int) : Int :=
  let agreed_cents : Int :=
    if 0 < req_max_cents then (off_min_cents + req_max_cents) / 2
    else off_min_cents
  max 1 agreed_cents

/-- Evaluation of one `(request, offer)` pair inside the table-building loop
of `compute_matches_for_market`: `none` if any of the four feasibility
filters (type, price, time, distance) rejects, otherwise
`some (cost, pair_score, agreed_price)`.  `hav` is the haversine distance in
km between two points given as four micro-degree coordinates. -/
def pairEval (p : PobaParams) (hav : Int → Int → Int → Int → ℚ)
    (r : MarketRequest) (o : MarketOffer) : Option (Int × Int × Int) :=
  let r_bit := kind_to_bit r.kind
  if r_bit ≠ 0 ∧ o.types_mask &&& r_bit = 0 then none
  else
    let req_max_cents : Int := r.max_price_cents
    let off_min_cents : Int := o.min_price_cents
    if 0 < req_max_cents ∧ req_max_cents < off_min_cents then none
    else if p.require_time_overlap &&
        !(intervals_overlap_ms r.window_start r.window_end o.window_start o.window_end
            p.min_overlap_ms p.early_slack_ms p.late_slack_ms p.require_time_overlap) then
      none
    else
      let coordsMissing :=
        r.from_lat = 0 ∨ r.from_lon = 0 ∨ r.to_lat = 0 ∨ r.to_lon = 0 ∨
        o.from_lat = 0 ∨ o.from_lon = 0 ∨ o.to_lat = 0 ∨ o.to_lon = 0
      let capsOn := 0 < p.max_start_km ∨ 0 < p.max_end_km ∨ 0 < p.max_total_km
      if coordsMissing ∧ capsOn then none
      else
        let d_start : ℚ :=
          if coordsMissing then 0 else hav r.from_lat r.from_lon o.from_lat o.from_lon
        let d_end : ℚ :=
          if coordsMissing then 0 else hav r.to_lat r.to_lon o.to_lat o.to_lon
        let d_total := d_start + d_end
        if 0 < p.max_start_km ∧ p.max_start_km < d_start then none
        else if 0 < p.max_end_km ∧ p.max_end_km < d_end then none
        else if 0 < p.max_total_km ∧ p.max_total_km < d_total then none
        else
          let p_cents : Int := agreed_price req_max_cents off_min_cents
          let penalty : Int := rustRound (p.alpha_per_km * d_total + p.beta_per_cent * (p_cents : ℚ))
          let score : Int := max 0 (p.base_score - penalty)
          some (penalty, score, p_cents)

/-- The `cost` table: `cost[i][j] = penalty` for feasible pairs, `inf`
otherwise. -/
def costTable (p : PobaParams) (hav : Int → Int → Int → Int → ℚ)
    (requests : List MarketRequest) (offers : List MarketOffer) : List (List Int) :=
  requests.map fun r => offers.map fun o =>
    match pairEval p hav r o with
    | some (c, _, _) => c
    | none => infCost

/-- The `partial_score` table (0 for infeasible pairs, as initialised). -/
def scoreTable (p : PobaParams) (hav : Int → Int → Int → Int → ℚ)
    (requests : List MarketRequest) (offers : List MarketOffer) : List (List Int) :=
  requests.map fun r => offers.map fun o =>
    match pairEval p hav r o with
    | some (_, s, _) => s
    | none => 0

/-- The `price_agreed` table (0 for infeasible pairs, as initialised). -/
def priceTable (p : PobaParams) (hav : Int → Int → Int → Int → ℚ)
    (requests : List MarketRequest) (offers : List MarketOffer) : List (List Int) :=
  requests.map fun r => offers.map fun o =>
    match pairEval p hav r o with
    | some (_, _, a) => a
    | none => 0

/-- The mutable best of the branch-and-bound search: `best_cost` and
`best_assign` (entry `i` is `some j` when request `i` takes offer `j`). -/
structure BBBest where
  cost : Int
  assign : List (Option Nat)
deriving DecidableEq

/-- The inner `for j in 0..m` loop of `dfs`: `js` enumerates the remaining
offer indices, `k` is the recursive descent into the next request.  A branch
is skipped when the offer's bit is set in the `u64` bitmask `used_mask`
(`(used_mask >> j) & 1 == 1`), when the pair is infeasible (`c >= inf`), or
when the extended cost already reaches the current best.  Rust `u64` shifts
take their shift amount modulo 64 in release builds (debug builds panic for
`j ≥ 64`), hence the explicit `% 64`: with more than 64 offers, offers `j`
and `j + 64` collide on one bit, exactly as in the compiled source. -/
def dfsRowGo (k : Nat → Int → List (Option Nat) → BBBest → BBBest)
    (row : List Int) (inf : Int) (used_mask : Nat) (acc : Int) (pre : List (Option Nat)) :
    List Nat → BBBest → BBBest
  | [], b => b
  | j :: js, b =>
      let b' :=
        if (used_mask >>> (j % 64)) &&& 1 = 1 then b
        else
          let c := row.getD j inf
          if inf ≤ c then b
          else if b.cost ≤ acc + c then b
          else k (used_mask ||| (1 <<< (j % 64))) (acc + c) (pre ++ [some j]) b
      dfsRowGo k row inf used_mask acc pre js b'

/-- The `dfs` search of `compute_matches_for_market`: depth-first over the
remaining rows of the cost table, with the taken offers in the `u64` bitset
`used_mask`, pruning whenever the accumulated cost reaches the best
(`acc_cost >= best_cost`), trying every feasible unused offer before the
skip branch (`acc_cost + skip_cost`), and recording the assignment at the
leaves whenever it strictly improves. -/
def dfs (m : Nat) (skip inf : Int) :
    List (List Int) → Nat → Int → List (Option Nat) → BBBest → BBBest
  | [], _, acc, pre, b => if acc < b.cost then ⟨acc, pre⟩ else b
  | row :: rest, used_mask, acc, pre, b =>
      if b.cost ≤ acc then b
      else
        let b1 := dfsRowGo (fun u a p s => dfs m skip inf rest u a p s)
          row inf used_mask acc pre (List.range m) b
        if acc + skip < b1.cost then
          dfs m skip inf rest used_mask (acc + skip) (pre ++ [none]) b1
        else b1

/-- Truncating cast `i64 as u32` (the rebuild loop stores
`agreed_cents as u32`). -/
def u32cast (a : Int) : Nat := (a % (2 ^ 32 : Int)).toNat

/-- The rebuild loop after the search: walk the recorded assignment, emit a
`MatchItem` per matched request using the `price_agreed` and `partial_score`
tables, and sum the scores into `total_score`. -/
def rebuildMatches (requests : List MarketRequest) (offers : List MarketOffer)
    (pagreed pscore : List (List Int)) (assign : List (Option Nat)) :
    Int × List MatchItem :=
  let items := (List.range requests.length).filterMap fun i =>
    match assign.getD i none with
    | none => none
    | some j =>
        some { request_uuid := (requests.getD i default).uuid_16
               offer_uuid := (offers.getD j default).uuid_16
               agreed_price_cents := u32cast ((pagreed.getD i []).getD j 0)
               pair_score := (pscore.getD i []).getD j 0 }
  (items.foldl (fun t it => t + it.pair_score) 0, items)

/-- The initial `BBBest`: `best_cost = inf`, `best_assign = vec![None; n]`. -/
def bbInit (n : Nat) : BBBest := ⟨infCost, List.replicate n none⟩

/-- `compute_matches_for_market`: empty market short-circuit, table
construction, branch-and-bound search, "no feasible assignment" check
(`best_cost >= inf` → empty result), then the rebuild of the matches. -/
def compute_matches_for_market (p : PobaParams) (hav : Int → Int → Int → Int → ℚ)
    (requests : List MarketRequest) (offers : List MarketOffer) :
    Int × List MatchItem :=
  let n := requests.length
  let m := offers.length
  if n = 0 ∨ m = 0 then (0, [])
  else
    let cost := costTable p hav requests offers
    let res := dfs m p.skip_cost infCost cost 0 0 [] (bbInit n)
    if infCost ≤ res.cost then (0, [])
    else rebuildMatches requests offers (priceTable p hav requests offers)
      (scoreTable p hav requests offers) res.assign

/-! ### Specification-side notions for the solver

`validCompletion` and `costOf` express, over the cost table, what the spec
calls a valid assignment `σ : {0..N−1} → {0..M−1} ∪ {skip}` (each offer
chosen at most once, only feasible pairs) and its total cost (with `skip`
contributing `skip_cost`). -/

/-- Apply a same-slot sequence of `submit_proposal` calls in order (the state
is left unchanged by a failing call, modelling the FRAME rollback). -/
def applySubmits (who slot : Nat) : List (Int × List PMatch) → PobaState → PobaState
  | [], st => st
  | (sc, ms) :: rest, st =>
      match submit_proposal who slot sc ms st with
      | .ok (st', _) => applySubmits who slot rest st'
      | .error _ => applySubmits who slot rest st

/-- Haversine stub for scenarios whose coordinates are all zero: the source
never evaluates the distance there (the missing-coordinates branch short
circuits to `(0.0, 0.0)`). -/
def hav0 : Int → Int → Int → Int → ℚ := fun _ _ _ _ => 0

/-- Scenario request `R1` of spec §8.1, with `window_start = 1` (a positive
lower bound) instead of the spec's `0`. -/
def reqA : MarketRequest :=
  { uuid_16 := 101, from_lat := 0, from_lon := 0, to_lat := 0, to_lon := 0
    max_price_cents := 1000, kind := 0, window_start := 1, window_end := 10000 }

/-- Scenario offer `O1` of spec §8.1, with `window_start = 1`. -/
def offA : MarketOffer :=
  { uuid_16 := 201, min_price_cents := 500, from_lat := 0, from_lon := 0
    to_lat := 0, to_lon := 0, window_start := 1, window_end := 10000, types_mask := 1 }

/-- Scenario request `R1` exactly as written in the spec: window `[0, 10000]`. -/
def reqZeroWin : MarketRequest := { reqA with window_start := 0 }

/-- Scenario offer `O1` exactly as written in the spec: window `[0, 10000]`. -/
def offZeroWin : MarketOffer := { offA with window_start := 0 }

/-- A request whose `kind` (5) is outside the known set `{0, 1}`. -/
def reqKind5 : MarketRequest := { reqA with uuid_16 := 105, kind := 5 }

/-- An offer whose `types_mask` (2, passenger only) has no bit in common with
bit 0; irrelevant for `reqKind5`, whose kind bit is 0. -/
def offMask2 : MarketOffer := { offA with types_mask := 2 }

/-- A proposal match with request uuid 11 used twice in the invalid winner. -/
def dupM : PMatch := ⟨11, 21, 750, 5⟩

/-- Ledger run: submit an invalid proposal for slot 7 (request uuid 11 twice,
declared total 999 while the pair scores sum to 10), then finalize slot 7 and
read back the installed winner. -/
def c1chain : Except PobaError Proposal := do
  let (s1, _) ← submit_proposal 1 7 999 [dupM, dupM] poba0
  let (s2, _) ← finalize_slot 7 s1
  match s2.finalizedProposal 7 with
  | some p => pure p
  | none => Except.error PobaError.NoProposalForSlot

/-- Match of the first (score 100) proposal for slot 5. -/
def mA : PMatch := ⟨31, 41, 100, 100⟩

/-- Match of the second (score 50) proposal for slot 5. -/
def mB : PMatch := ⟨32, 42, 50, 50⟩

/-- Ledger run: submit (slot 5, score 100), finalize slot 5, read the winner;
then submit again (slot 5, score 50), finalize slot 5 a second time, and read
the winner again. -/
def c2chain : Except PobaError (Proposal × Proposal) := do
  let (s1, _) ← submit_proposal 1 5 100 [mA] poba0
  let (s2, _) ← finalize_slot 5 s1
  let f1 ← match s2.finalizedProposal 5 with
    | some p => Except.ok p
    | none => Except.error PobaError.NoProposalForSlot
  let (s3, _) ← submit_proposal 2 5 50 [mB] s2
  let (s4, _) ← finalize_slot 5 s3
  let f2 ← match s4.finalizedProposal 5 with
    | some p => Except.ok p
    | none => Except.error PobaError.NoProposalForSlot
  pure (f1, f2)

/-- The escrow record created by `create_escrow 0 50 1 2 3 4 5` on genesis
state (request 1, offer 2, driver 3, payer 4, amount 5, block 0,
timeout 50). -/
def recC8 : AssignmentEscrow :=
  { request_uuid := 1, offer_uuid := 2, driver := 3, payer := 4, amount := 5
    status := .Created, created_at := 0, deadline := 50 }

/-- Escrow state after that `create_escrow`. -/
def stC8a : EscrowState :=
  { nextEscrowId := 1
    escrows := upd escrow0.escrows 0 (some recC8)
    requestToEscrow := upd escrow0.requestToEscrow 1 (some 0) }

/-- Escrow state after `release_escrow 1 2` on `stC8a`: the single escrow is
now terminal (`ConfirmedByReceiver`) but the `RequestToEscrow` entry for
request 1 is still present. -/
def stC8b : EscrowState :=
  let rec' := { recC8 with status := DeliveryStatus.ConfirmedByReceiver }
  { stC8a with escrows := upd stC8a.escrows 0 (some rec') }

/-- A mid-lifecycle escrow (status `PickedUpByCourier`) used as a concrete
instance for the transition-table and frame theorems. -/
def recC7 : AssignmentEscrow :=
  { request_uuid := 8, offer_uuid := 9, driver := 3, payer := 4, amount := 6
    status := .PickedUpByCourier, created_at := 10, deadline := 60 }

/-- Escrow state holding `recC7` under id 0. -/
def stC7 : EscrowState :=
  { nextEscrowId := 1
    escrows := upd escrow0.escrows 0 (some recC7)
    requestToEscrow := upd escrow0.requestToEscrow 8 (some 0) }

/-! ## Theorems -/

/-- `hasDupRequestId` is the complement of pairwise-distinct `request_id`s. -/
theorem hasDupRequestId_eq_false_iff (l : List AssignmentInput) :
    hasDupRequestId l = false ↔ l.Pairwise (fun a b => a.request_id ≠ b.request_id) := by
  induction l with
  | nil => simp [hasDupRequestId]
  | cons a rest ih =>
      simp only [hasDupRequestId, Bool.or_eq_false_iff, List.pairwise_cons, ih]
      constructor
      · rintro ⟨h1, h2⟩
        refine ⟨fun b hb => ?_, h2⟩
        intro heq
        have : rest.any (fun b => a.request_id == b.request_id) = true :=
          List.any_eq_true.mpr ⟨b, hb, by simp [heq]⟩
        rw [h1] at this
        exact Bool.false_ne_true this
      · rintro ⟨h1, h2⟩
        refine ⟨?_, h2⟩
        by_contra hne
        have : rest.any (fun b => a.request_id == b.request_id) = true := by
          cases hany : rest.any (fun b => a.request_id == b.request_id) with
          | false => exact absurd hany hne
          | true => rfl
        obtain ⟨b, hb, hbeq⟩ := List.any_eq_true.mp this
        exact h1 b hb (by simpa using hbeq)

/-- Claim C4 (counterexample): with `slot = 5`, `lag = 0`,
`last_finalized_slot_local = 0`, a finalize attempt whose HTTP response
carries a failure status still advances `last_finalized_slot_local` to 5 —
contradicting "after any failed finalization attempt it is not advanced". -/
theorem last_finalized_advances_on_failed_response_cex :
    finalizer_step 5 0 0 (FinalizeHttpOutcome.response false) = 5 ∧
    finalizer_step 5 0 0 (FinalizeHttpOutcome.response false) ≠ 0 := by
  exact ⟨rfl, by decide⟩


/-- Claim C4 (amended): in the finalizer loop, `last_finalized_slot_local`
is advanced to the target slot whenever the finalize HTTP call returns a
response — whether or not its status is a success — and is left unchanged
exactly when the request itself fails in transport or no attempt is due. -/
theorem finalizer_step_characterization (slot lag last : Nat)
    (outcome : FinalizeHttpOutcome) :
    (0 < slot - lag ∧ last < slot - lag →
      (∀ s, outcome = .response s → finalizer_step slot lag last outcome = slot - lag) ∧
      (outcome = .transportFailure → finalizer_step slot lag last outcome = last)) ∧
    (¬(0 < slot - lag ∧ last < slot - lag) →
      finalizer_step slot lag last outcome = last) := by
  constructor
  · intro h
    constructor
    · intro s hs
      subst hs
      unfold finalizer_step
      rw [if_pos h]
    · intro hs
      subst hs
      unfold finalizer_step
      rw [if_pos h]
  · intro h
    unfold finalizer_step
    rw [if_neg h]

/-- Witness for `finalizer_step_characterization` at `slot = 9`, `lag = 2`,
`last = 3`, transport failure: the local counter stays 3. -/
theorem finalizer_step_characterization_witness :
    finalizer_step 9 2 3 FinalizeHttpOutcome.transportFailure = 3 :=
  ((finalizer_step_characterization 9 2 3 FinalizeHttpOutcome.transportFailure).1
    (by decide)).2 rfl

/-- Rewrites `finalize_slot` when the slot has no best proposal. -/
theorem finalize_slot_eq_none {slot : Nat} {st : PobaState}
    (h : st.bestProposal slot = none) :
    finalize_slot slot st = .error .NoProposalForSlot := by
  unfold finalize_slot
  rw [h]

/-- Rewrites `finalize_slot` when the slot holds best proposal `w`. -/
theorem finalize_slot_eq_some {slot : Nat} {st : PobaState} {w : Proposal}
    (h : st.bestProposal slot = some w) :
    finalize_slot slot st =
      if w.matches'.isEmpty then .error .NoProposalForSlot
      else
        .ok ({ bestProposal := upd st.bestProposal slot none
               finalizedProposal := upd st.finalizedProposal slot (some w)
               lastFinalizedSlot := slot },
             [.SlotFinalized slot w.total_score w.matches'.length]) := by
  unfold finalize_slot
  rw [h]

/-- Claim C1 (counterexample): a proposal for slot 7 whose matches repeat
request uuid 11 and whose declared total (999) differs from the sum of the
pair scores (10) is accepted by `submit_proposal` and then installed by
`finalize_slot` without any error: the run ends with
`FinalizedProposal[7]` holding exactly that invalid proposal, whereas the
claim demands an `InvalidWinner` failure with no state change. -/
theorem finalize_slot_no_validation_cex :
    c1chain = Except.ok ⟨999, [dupM, dupM]⟩ ∧
    ¬ ([dupM, dupM].map PMatch.request_uuid).Nodup ∧
    [dupM, dupM].foldl (fun a mm => a + mm.pair_score) 0 ≠ 999 :=
  ⟨rfl, by decide, by decide⟩

/-- Claim C1 (amended): `finalize_slot` performs no winner validation at all —
it succeeds exactly when a non-empty best proposal exists for the slot,
whatever its contents (duplicate uuids and score mismatches included), moving
it to `FinalizedProposal` and consuming `BestProposal`; the only winner
validation in the codebase is the ink contract's `validate_winner`, a pure
function never invoked by the pallet, which accepts exactly when no
`request_id` repeats and the declared total equals the saturating sum of the
pair scores — offer/driver duplicates are not checked. -/
theorem finalize_slot_and_validate_winner_characterization :
    (∀ slot st, (∃ out, finalize_slot slot st = .ok out) ↔
        ∃ p, st.bestProposal slot = some p ∧ p.matches' ≠ []) ∧
    (∀ slot st st' ev, finalize_slot slot st = .ok (st', ev) →
        ∃ p, st.bestProposal slot = some p ∧
          st'.bestProposal = upd st.bestProposal slot none ∧
          st'.finalizedProposal = upd st.finalizedProposal slot (some p) ∧
          st'.lastFinalizedSlot = slot ∧
          ev = [.SlotFinalized slot p.total_score p.matches'.length]) ∧
    (∀ total as, validate_winner total as = true ↔
        (as.Pairwise (fun a b => a.request_id ≠ b.request_id) ∧
         as.foldl (fun acc a => satAddU128 acc a.pair_score) 0 = total)) := by
  refine ⟨?_, ?_, ?_⟩
  · intro slot st
    cases hb : st.bestProposal slot with
    | none => simp [finalize_slot_eq_none hb]
    | some winner =>
        rw [finalize_slot_eq_some hb]
        by_cases he : winner.matches'.isEmpty = true
        · rw [if_pos he]
          simp [List.isEmpty_iff.mp he]
        · rw [if_neg he]
          have he' : winner.matches' ≠ [] := by
            intro hnil
            exact he (by simp [hnil])
          simp [he']
  · intro slot st st' ev h
    cases hb : st.bestProposal slot with
    | none =>
        rw [finalize_slot_eq_none hb] at h
        exact absurd h (by simp)
    | some winner =>
        rw [finalize_slot_eq_some hb] at h
        by_cases he : winner.matches'.isEmpty = true
        · rw [if_pos he] at h
          exact absurd h (by simp)
        · rw [if_neg he] at h
          simp only [Except.ok.injEq, Prod.mk.injEq] at h
          obtain ⟨h1, h2⟩ := h
          subst h2
          refine ⟨winner, rfl, ?_, ?_, ?_, rfl⟩
          · rw [← h1]
          · rw [← h1]
          · rw [← h1]
  · intro total as
    unfold validate_winner
    by_cases hd : hasDupRequestId as = true
    · rw [if_pos hd]
      constructor
      · intro hc
        exact absurd hc (by simp)
      · rintro ⟨hp, _⟩
        have hfalse := (hasDupRequestId_eq_false_iff as).mpr hp
        rw [hd] at hfalse
        exact absurd hfalse (by simp)
    · rw [if_neg hd]
      have hd' : hasDupRequestId as = false := by simpa using hd
      rw [beq_iff_eq]
      exact ⟨fun hc => ⟨(hasDupRequestId_eq_false_iff as).mp hd', hc⟩, fun h => h.2⟩

/-- Witness for `finalize_slot_and_validate_winner_characterization`: the
contract accepts a two-assignment winner with distinct request ids, the same
driver twice, and a correct total. -/
theorem finalize_slot_characterization_witness :
    validate_winner 10 [⟨1, 7, 4⟩, ⟨2, 7, 6⟩] = true :=
  (finalize_slot_and_validate_winner_characterization.2.2 10 [⟨1, 7, 4⟩, ⟨2, 7, 6⟩]).mpr
    ⟨by decide, by decide⟩

/-- Claim C2 (counterexample): submit (slot 5, score 100), finalize slot 5 —
the winner is `⟨100, [mA]⟩`; then submit (slot 5, score 50) and call
`finalize_slot 5` again: the second finalization also succeeds and
`FinalizedProposal[5]` silently changes to `⟨50, [mB]⟩`, contradicting both
"every later finalize_slot(slot) call fails" and the immutability of
`FinalizedProposal[slot]`, with the interposed `submit_proposal` being the
enabler. -/
theorem finalized_proposal_overwrite_cex :
    c2chain = Except.ok (⟨100, [mA]⟩, ⟨50, [mB]⟩) ∧
    (⟨100, [mA]⟩ : Proposal) ≠ ⟨50, [mB]⟩ :=
  ⟨rfl, by decide⟩

/-- Claim C2 (amended): a successful `finalize_slot(slot)` consumes
`BestProposal[slot]` (it becomes `none` while `FinalizedProposal[slot]`
receives the old best), so a repeated `finalize_slot(slot)` — immediately, or
as long as no further `submit_proposal` for that slot has been accepted in
between — fails with `NoProposalForSlot` and changes nothing; a later
accepted `submit_proposal`, however, re-installs a best proposal, after which
`finalize_slot(slot)` succeeds again and overwrites
`FinalizedProposal[slot]`. -/
theorem finalize_slot_one_shot_until_resubmission :
    (∀ slot st st' ev, finalize_slot slot st = .ok (st', ev) →
        st'.bestProposal slot = none ∧
        st'.finalizedProposal slot = st.bestProposal slot ∧
        finalize_slot slot st' = .error .NoProposalForSlot) ∧
    (∀ slot st, st.bestProposal slot = none →
        finalize_slot slot st = .error .NoProposalForSlot) := by
  refine ⟨?_, fun slot st h => finalize_slot_eq_none h⟩
  intro slot st st' ev h
  cases hb : st.bestProposal slot with
  | none =>
      rw [finalize_slot_eq_none hb] at h
      exact absurd h (by simp)
  | some winner =>
      rw [finalize_slot_eq_some hb] at h
      by_cases he : winner.matches'.isEmpty = true
      · rw [if_pos he] at h
        exact absurd h (by simp)
      · rw [if_neg he] at h
        simp only [Except.ok.injEq, Prod.mk.injEq] at h
        obtain ⟨h1, _⟩ := h
        have hbest : st'.bestProposal slot = none := by
          rw [← h1]
          exact upd_same ..
        refine ⟨hbest, ?_, finalize_slot_eq_none hbest⟩
        rw [← h1]
        exact upd_same ..

/-- Witness for `finalize_slot_one_shot_until_resubmission`: on the genesis
ledger, where slot 3 has no best proposal, finalization fails. -/
theorem finalize_one_shot_witness :
    finalize_slot 3 poba0 = Except.error PobaError.NoProposalForSlot :=
  finalize_slot_one_shot_until_resubmission.2 3 poba0 rfl

/-- Rewrites `submit_proposal` for a valid submission on a slot with no best
proposal yet: the proposal is installed. -/
theorem submit_proposal_eq_none (who slot : Nat) (sc : Int) (ms : List PMatch)
    {st : PobaState} (hb : st.bestProposal slot = none)
    (h1 : ms.length ≤ MAX_MATCHES_PER_PROPOSAL) (h2 : ms ≠ []) :
    submit_proposal who slot sc ms st =
      .ok ({ st with bestProposal := upd st.bestProposal slot (some ⟨sc, ms⟩) },
           [.ProposalSubmitted slot sc ms.length who]) := by
  unfold submit_proposal
  rw [if_neg (Nat.not_lt.mpr h1), if_neg (by simp [List.isEmpty_iff, h2]), hb]

/-- Rewrites `submit_proposal` for a valid submission on a slot already
holding `ex`: replacement happens iff the new score is strictly greater, and
the event is emitted either way. -/
theorem submit_proposal_eq_some (who slot : Nat) (sc : Int) (ms : List PMatch)
    {st : PobaState} {ex : Proposal} (hb : st.bestProposal slot = some ex)
    (h1 : ms.length ≤ MAX_MATCHES_PER_PROPOSAL) (h2 : ms ≠ []) :
    submit_proposal who slot sc ms st =
      .ok ((if ex.total_score < sc then
              { st with bestProposal := upd st.bestProposal slot (some ⟨sc, ms⟩) }
            else st),
           [.ProposalSubmitted slot sc ms.length who]) := by
  unfold submit_proposal
  rw [if_neg (Nat.not_lt.mpr h1), if_neg (by simp [List.isEmpty_iff, h2]), hb]

/-- Monotone-maximum invariant of a same-slot submission sequence, starting
from a state whose best proposal for the slot is `b0`. -/
theorem applySubmits_from_some (who slot : Nat) :
    ∀ (subs : List (Int × List PMatch)) (st : PobaState) (b0 : Proposal),
      st.bestProposal slot = some b0 →
      (∀ x ∈ subs, x.2 ≠ [] ∧ x.2.length ≤ MAX_MATCHES_PER_PROPOSAL) →
      ∃ b, (applySubmits who slot subs st).bestProposal slot = some b ∧
        (b = b0 ∨ b.total_score ∈ subs.map Prod.fst) ∧
        b0.total_score ≤ b.total_score ∧
        ∀ s ∈ subs.map Prod.fst, s ≤ b.total_score
  | [], _, b0, hb, _ => ⟨b0, hb, Or.inl rfl, le_refl _, by simp⟩
  | (sc, ms) :: rest, st, b0, hb, hv => by
      have hx := hv (sc, ms) (by simp)
      by_cases himp : b0.total_score < sc
      · have hsub : submit_proposal who slot sc ms st =
            .ok ({ st with bestProposal := upd st.bestProposal slot (some ⟨sc, ms⟩) },
                 [.ProposalSubmitted slot sc ms.length who]) := by
          rw [submit_proposal_eq_some who slot sc ms hb hx.2 hx.1, if_pos himp]
        simp only [applySubmits, hsub]
        have hb' : ({ st with bestProposal := upd st.bestProposal slot (some ⟨sc, ms⟩) }
            : PobaState).bestProposal slot = some ⟨sc, ms⟩ := upd_same ..
        obtain ⟨b, h1, h2, h3, h4⟩ :=
          applySubmits_from_some who slot rest _ ⟨sc, ms⟩ hb'
            (fun x hxx => hv x (by simp [hxx]))
        refine ⟨b, h1, ?_, le_trans (le_of_lt himp) h3, ?_⟩
        · cases h2 with
          | inl he => subst he; exact Or.inr (by simp)
          | inr hm => exact Or.inr (by simp [hm])
        · intro s hs
          simp only [List.map_cons, List.mem_cons] at hs
          cases hs with
          | inl h => subst h; exact h3
          | inr h => exact h4 s h
      · have hsub : submit_proposal who slot sc ms st =
            .ok (st, [.ProposalSubmitted slot sc ms.length who]) := by
          rw [submit_proposal_eq_some who slot sc ms hb hx.2 hx.1, if_neg himp]
        simp only [applySubmits, hsub]
        obtain ⟨b, h1, h2, h3, h4⟩ :=
          applySubmits_from_some who slot rest st b0 hb
            (fun x hxx => hv x (by simp [hxx]))
        refine ⟨b, h1, ?_, h3, ?_⟩
        · cases h2 with
          | inl he => exact Or.inl he
          | inr hm => exact Or.inr (by simp [hm])
        · intro s hs
          simp only [List.map_cons, List.mem_cons] at hs
          cases hs with
          | inl h => subst h; exact le_trans (le_of_not_lt himp) h3
          | inr h => exact h4 s h

/-- Claim C6: within a slot, a valid `submit_proposal` always emits a
`ProposalSubmitted` event and replaces the stored best proposal iff the new
`total_score` is strictly greater (an equal score leaves the stored proposal
untouched); consequently, over any non-empty same-slot sequence of valid
submissions starting from a fresh slot, `BestProposal[slot].total_score` is
the maximum of the submitted scores — in particular it never decreases. -/
theorem submit_proposal_monotone_max :
    (∀ who slot sc ms st (ex : Proposal), ms ≠ [] →
        ms.length ≤ MAX_MATCHES_PER_PROPOSAL →
        st.bestProposal slot = some ex →
        ∃ st', submit_proposal who slot sc ms st =
            .ok (st', [.ProposalSubmitted slot sc ms.length who]) ∧
          st'.bestProposal slot = some (if ex.total_score < sc then ⟨sc, ms⟩ else ex) ∧
          ex.total_score ≤ (if ex.total_score < sc then (⟨sc, ms⟩ : Proposal) else ex).total_score) ∧
    (∀ who slot subs st, st.bestProposal slot = none → subs ≠ [] →
        (∀ x ∈ subs, x.2 ≠ [] ∧ x.2.length ≤ MAX_MATCHES_PER_PROPOSAL) →
        ∃ b, (applySubmits who slot subs st).bestProposal slot = some b ∧
          b.total_score ∈ subs.map Prod.fst ∧
          ∀ s ∈ subs.map Prod.fst, s ≤ b.total_score) := by
  constructor
  · intro who slot sc ms st ex h2 h1 hb
    refine ⟨_, submit_proposal_eq_some who slot sc ms hb h1 h2, ?_, ?_⟩
    · by_cases himp : ex.total_score < sc
      · rw [if_pos himp, if_pos himp]
        exact upd_same ..
      · rw [if_neg himp, if_neg himp]
        exact hb
    · by_cases himp : ex.total_score < sc
      · rw [if_pos himp]
        exact le_of_lt himp
      · rw [if_neg himp]
  · intro who slot subs st hb hne hv
    cases subs with
    | nil => exact absurd rfl hne
    | cons head rest =>
        obtain ⟨sc, ms⟩ := head
        have hx := hv (sc, ms) (by simp)
        have hsub := submit_proposal_eq_none who slot sc ms hb hx.2 hx.1
        simp only [applySubmits, hsub]
        have hb' : ({ st with bestProposal := upd st.bestProposal slot (some ⟨sc, ms⟩) }
            : PobaState).bestProposal slot = some ⟨sc, ms⟩ := upd_same ..
        obtain ⟨b, h1, h2, h3, h4⟩ :=
          applySubmits_from_some who slot rest _ ⟨sc, ms⟩ hb'
            (fun x hxx => hv x (by simp [hxx]))
        refine ⟨b, h1, ?_, ?_⟩
        · cases h2 with
          | inl he => subst he; simp
          | inr hm => simp only [List.map_cons, List.mem_cons]; exact Or.inr hm
        · intro s hs
          simp only [List.map_cons, List.mem_cons] at hs
          cases hs with
          | inl h => subst h; exact h3
          | inr h => exact h4 s h

/-- Witness for `submit_proposal_monotone_max`: submitting scores 100 then 50
for slot 5 on the genesis ledger leaves a best proposal whose score is the
maximum, 100. -/
theorem submit_proposal_monotone_max_witness :
    ∃ b, (applySubmits 1 5 [(100, [mA]), (50, [mB])] poba0).bestProposal 5 = some b ∧
      b.total_score ∈ ([((100 : Int), [mA]), (50, [mB])].map Prod.fst) ∧
      ∀ s ∈ ([((100 : Int), [mA]), (50, [mB])].map Prod.fst), s ≤ b.total_score :=
  submit_proposal_monotone_max.2 1 5 [(100, [mA]), (50, [mB])] poba0 rfl (by decide)
    (by decide)

/-- Success inversion for `mark_picked_up`. -/
theorem mark_picked_up_ok {who eid : Nat} {st st' : EscrowState} {ev : List EscrowEvent}
    (h : mark_picked_up who eid st = .ok (st', ev)) :
    ∃ e, st.escrows eid = some e ∧ who = e.driver ∧ e.status = .Created ∧
      st' = { st with escrows := upd st.escrows eid (some { e with status := .PickedUpByCourier }) } ∧
      ev = [.PickedUp eid] := by
  cases he : st.escrows eid with
  | none => simp [mark_picked_up, he] at h
  | some e =>
      by_cases hw : who = e.driver
      · cases hs : e.status <;> simp [mark_picked_up, he, hw, hs, is_final_status] at h
        exact ⟨e, rfl, hw, hs, h.1.symm, h.2.symm⟩
      · cases hs : e.status <;> simp [mark_picked_up, he, hw, hs, is_final_status] at h

/-- `mark_picked_up` succeeds under the table row driver/Created. -/
theorem mark_picked_up_of {who eid : Nat} {st : EscrowState} {e : AssignmentEscrow}
    (he : st.escrows eid = some e) (hw : who = e.driver) (hs : e.status = .Created) :
    mark_picked_up who eid st =
      .ok ({ st with escrows := upd st.escrows eid (some { e with status := .PickedUpByCourier }) },
           [.PickedUp eid]) := by
  simp [mark_picked_up, he, hw, hs, is_final_status]

/-- Success inversion for `mark_delivered`. -/
theorem mark_delivered_ok {who eid : Nat} {st st' : EscrowState} {ev : List EscrowEvent}
    (h : mark_delivered who eid st = .ok (st', ev)) :
    ∃ e, st.escrows eid = some e ∧ who = e.driver ∧ e.status = .PickedUpByCourier ∧
      st' = { st with escrows := upd st.escrows eid (some { e with status := .DeliveredByCourier }) } ∧
      ev = [.Delivered eid] := by
  cases he : st.escrows eid with
  | none => simp [mark_delivered, he] at h
  | some e =>
      by_cases hw : who = e.driver
      · cases hs : e.status <;> simp [mark_delivered, he, hw, hs, is_final_status] at h
        exact ⟨e, rfl, hw, hs, h.1.symm, h.2.symm⟩
      · cases hs : e.status <;> simp [mark_delivered, he, hw, hs, is_final_status] at h

/-- `mark_delivered` succeeds under the table row driver/PickedUpByCourier. -/
theorem mark_delivered_of {who eid : Nat} {st : EscrowState} {e : AssignmentEscrow}
    (he : st.escrows eid = some e) (hw : who = e.driver)
    (hs : e.status = .PickedUpByCourier) :
    mark_delivered who eid st =
      .ok ({ st with escrows := upd st.escrows eid (some { e with status := .DeliveredByCourier }) },
           [.Delivered eid]) := by
  simp [mark_delivered, he, hw, hs, is_final_status]

/-- Success inversion for `confirm_received`. -/
theorem confirm_received_ok {who eid : Nat} {st st' : EscrowState} {ev : List EscrowEvent}
    (h : confirm_received who eid st = .ok (st', ev)) :
    ∃ e, st.escrows eid = some e ∧ who = e.payer ∧ e.status = .DeliveredByCourier ∧
      st' = { st with escrows := upd st.escrows eid (some { e with status := .ConfirmedByReceiver }) } ∧
      ev = [.PaymentReleased eid e.amount, .ReceiverConfirmed eid] := by
  cases he : st.escrows eid with
  | none => simp [confirm_received, he] at h
  | some e =>
      by_cases hw : who = e.payer
      · cases hs : e.status <;> simp [confirm_received, he, hw, hs, is_final_status] at h
        exact ⟨e, rfl, hw, hs, h.1.symm, h.2.symm⟩
      · cases hs : e.status <;> simp [confirm_received, he, hw, hs, is_final_status] at h

/-- `confirm_received` succeeds under the table row payer/DeliveredByCourier. -/
theorem confirm_received_of {who eid : Nat} {st : EscrowState} {e : AssignmentEscrow}
    (he : st.escrows eid = some e) (hw : who = e.payer)
    (hs : e.status = .DeliveredByCourier) :
    confirm_received who eid st =
      .ok ({ st with escrows := upd st.escrows eid (some { e with status := .ConfirmedByReceiver }) },
           [.PaymentReleased eid e.amount, .ReceiverConfirmed eid]) := by
  simp [confirm_received, he, hw, hs, is_final_status]

/-- Success inversion for `force_timeout_release`. -/
theorem force_timeout_release_ok {now eid : Nat} {st st' : EscrowState}
    {ev : List EscrowEvent}
    (h : force_timeout_release now eid st = .ok (st', ev)) :
    ∃ e, st.escrows eid = some e ∧ is_final_status e.status = false ∧
      e.deadline ≤ now ∧
      st' = { st with escrows := upd st.escrows eid (some { e with status := .TimeoutReleased }) } ∧
      ev = [.PaymentReleased eid e.amount] := by
  cases he : st.escrows eid with
  | none => simp [force_timeout_release, he] at h
  | some e =>
      by_cases hf : is_final_status e.status = true
      · simp [force_timeout_release, he, hf] at h
      · by_cases hd : now < e.deadline
        · simp [force_timeout_release, he, hf, hd] at h
        · simp [force_timeout_release, he, hf, hd] at h
          exact ⟨e, rfl, by simpa using hf, Nat.le_of_not_lt hd, h.1.symm, h.2.symm⟩

/-- `force_timeout_release` succeeds on any non-terminal escrow once the
deadline has been reached. -/
theorem force_timeout_release_of {now eid : Nat} {st : EscrowState}
    {e : AssignmentEscrow} (he : st.escrows eid = some e)
    (hf : is_final_status e.status = false) (hd : e.deadline ≤ now) :
    force_timeout_release now eid st =
      .ok ({ st with escrows := upd st.escrows eid (some { e with status := .TimeoutReleased }) },
           [.PaymentReleased eid e.amount]) := by
  simp [force_timeout_release, he, hf, Nat.not_lt.mpr hd]

/-- Success inversion for `release_escrow`. -/
theorem release_escrow_ok {req off : Nat} {st st' : EscrowState} {ev : List EscrowEvent}
    (h : release_escrow req off st = .ok (st', ev)) :
    ∃ eid e, st.requestToEscrow req = some eid ∧ st.escrows eid = some e ∧
      e.offer_uuid = off ∧ is_final_status e.status = false ∧
      st' = { st with escrows := upd st.escrows eid (some { e with status := .ConfirmedByReceiver }) } ∧
      ev = [.PaymentReleased eid e.amount, .ReceiverConfirmed eid] := by
  cases hq : st.requestToEscrow req with
  | none => simp [release_escrow, hq] at h
  | some eid =>
      cases he : st.escrows eid with
      | none => simp [release_escrow, hq, he] at h
      | some e =>
          by_cases ho : e.offer_uuid = off
          · subst ho
            by_cases hf : is_final_status e.status = true
            · simp [release_escrow, hq, he, hf] at h
            · simp [release_escrow, hq, he, hf] at h
              exact ⟨eid, e, rfl, he, rfl, by simpa using hf, h.1.symm, h.2.symm⟩
          · simp [release_escrow, hq, he, ho] at h

/-- Success inversion for `create_escrow`. -/
theorem create_escrow_ok {now tb req off drv pay amt : Nat} {st st' : EscrowState}
    {ev : List EscrowEvent}
    (h : create_escrow now tb req off drv pay amt st = .ok (st', ev)) :
    st.requestToEscrow req = none ∧ amt ≠ 0 ∧
      st' = { nextEscrowId := (st.nextEscrowId + 1) % 2 ^ 64
              escrows := upd st.escrows st.nextEscrowId (some ⟨req, off, drv, pay, amt, .Created, now, now + tb⟩)
              requestToEscrow := upd st.requestToEscrow req (some st.nextEscrowId) } ∧
      ev = [.EscrowCreated st.nextEscrowId req off drv pay amt (now + tb)] := by
  cases hq : st.requestToEscrow req with
  | some eid => simp [create_escrow, hq] at h
  | none =>
      by_cases ha : amt = 0
      · simp [create_escrow, hq, ha] at h
      · simp [create_escrow, hq, ha] at h
        exact ⟨rfl, ha, h.1.symm, h.2.symm⟩

/-- `create_escrow` succeeds whenever the request has no index entry and the
amount is positive. -/
theorem create_escrow_of {now tb req off drv pay amt : Nat} {st : EscrowState}
    (hq : st.requestToEscrow req = none) (ha : amt ≠ 0) :
    create_escrow now tb req off drv pay amt st =
      .ok ({ nextEscrowId := (st.nextEscrowId + 1) % 2 ^ 64
             escrows := upd st.escrows st.nextEscrowId (some ⟨req, off, drv, pay, amt, .Created, now, now + tb⟩)
             requestToEscrow := upd st.requestToEscrow req (some st.nextEscrowId) },
           [.EscrowCreated st.nextEscrowId req off drv pay amt (now + tb)]) := by
  simp [create_escrow, hq, ha]

/-- Claim C7: every escrow status change matches its §4.4 table row —
`mark_picked_up` succeeds exactly for the stored driver on a `Created`
escrow (new status `PickedUpByCourier`), `mark_delivered` exactly for the
driver on `PickedUpByCourier` (new status `DeliveredByCourier`),
`confirm_received` exactly for the stored payer on `DeliveredByCourier`
(new status `ConfirmedByReceiver`), and `force_timeout_release` succeeds
exactly on an existing non-terminal escrow whose deadline has been reached
(new status `TimeoutReleased`); every other call returns an error, and a
dispatch error carries no state change. -/
theorem escrow_transition_table :
    (∀ who eid (st : EscrowState), (∃ out, mark_picked_up who eid st = .ok out) ↔
        ∃ e, st.escrows eid = some e ∧ who = e.driver ∧ e.status = .Created) ∧
    (∀ who eid (st st' : EscrowState) ev, mark_picked_up who eid st = .ok (st', ev) →
        ∃ e, st.escrows eid = some e ∧
          st' = { st with escrows := upd st.escrows eid (some { e with status := .PickedUpByCourier }) }) ∧
    (∀ who eid (st : EscrowState), (∃ out, mark_delivered who eid st = .ok out) ↔
        ∃ e, st.escrows eid = some e ∧ who = e.driver ∧ e.status = .PickedUpByCourier) ∧
    (∀ who eid (st st' : EscrowState) ev, mark_delivered who eid st = .ok (st', ev) →
        ∃ e, st.escrows eid = some e ∧
          st' = { st with escrows := upd st.escrows eid (some { e with status := .DeliveredByCourier }) }) ∧
    (∀ who eid (st : EscrowState), (∃ out, confirm_received who eid st = .ok out) ↔
        ∃ e, st.escrows eid = some e ∧ who = e.payer ∧ e.status = .DeliveredByCourier) ∧
    (∀ who eid (st st' : EscrowState) ev, confirm_received who eid st = .ok (st', ev) →
        ∃ e, st.escrows eid = some e ∧
          st' = { st with escrows := upd st.escrows eid (some { e with status := .ConfirmedByReceiver }) }) ∧
    (∀ now eid (st : EscrowState), (∃ out, force_timeout_release now eid st = .ok out) ↔
        ∃ e, st.escrows eid = some e ∧ is_final_status e.status = false ∧ e.deadline ≤ now) ∧
    (∀ now eid (st st' : EscrowState) ev, force_timeout_release now eid st = .ok (st', ev) →
        ∃ e, st.escrows eid = some e ∧
          st' = { st with escrows := upd st.escrows eid (some { e with status := .TimeoutReleased }) }) := by
  refine ⟨?_, ?_, ?_, ?_, ?_, ?_, ?_, ?_⟩
  · intro who eid st
    constructor
    · rintro ⟨⟨st', ev⟩, h⟩
      obtain ⟨e, he, hw, hs, _, _⟩ := mark_picked_up_ok h
      exact ⟨e, he, hw, hs⟩
    · rintro ⟨e, he, hw, hs⟩
      exact ⟨_, mark_picked_up_of he hw hs⟩
  · intro who eid st st' ev h
    obtain ⟨e, he, _, _, hst, _⟩ := mark_picked_up_ok h
    exact ⟨e, he, hst⟩
  · intro who eid st
    constructor
    · rintro ⟨⟨st', ev⟩, h⟩
      obtain ⟨e, he, hw, hs, _, _⟩ := mark_delivered_ok h
      exact ⟨e, he, hw, hs⟩
    · rintro ⟨e, he, hw, hs⟩
      exact ⟨_, mark_delivered_of he hw hs⟩
  · intro who eid st st' ev h
    obtain ⟨e, he, _, _, hst, _⟩ := mark_delivered_ok h
    exact ⟨e, he, hst⟩
  · intro who eid st
    constructor
    · rintro ⟨⟨st', ev⟩, h⟩
      obtain ⟨e, he, hw, hs, _, _⟩ := confirm_received_ok h
      exact ⟨e, he, hw, hs⟩
    · rintro ⟨e, he, hw, hs⟩
      exact ⟨_, confirm_received_of he hw hs⟩
  · intro who eid st st' ev h
    obtain ⟨e, he, _, _, hst, _⟩ := confirm_received_ok h
    exact ⟨e, he, hst⟩
  · intro now eid st
    constructor
    · rintro ⟨⟨st', ev⟩, h⟩
      obtain ⟨e, he, hf, hd, _, _⟩ := force_timeout_release_ok h
      exact ⟨e, he, hf, hd⟩
    · rintro ⟨e, he, hf, hd⟩
      exact ⟨_, force_timeout_release_of he hf hd⟩
  · intro now eid st st' ev h
    obtain ⟨e, he, _, _, hst, _⟩ := force_timeout_release_ok h
    exact ⟨e, he, hst⟩

/-- Witness for `escrow_transition_table`: the stored driver (3) can mark the
`PickedUpByCourier` escrow of `stC7` delivered, and the payer (4) cannot be
the one to do it. -/
theorem escrow_transition_table_witness :
    ∃ out, mark_delivered 3 0 stC7 = .ok out :=
  (escrow_transition_table.2.2.1 3 0 stC7).mpr ⟨recC7, rfl, rfl, rfl⟩

/-- Claim C8 (counterexample): create an escrow for request 1 (amount 5),
release it through `release_escrow` so its status becomes the terminal
`ConfirmedByReceiver`, and call `create_escrow` for request 1 again with
amount 5 > 0: the call fails with `RequestAlreadyAssigned` even though no
active (non-terminal) escrow for the request exists — the claim's "succeeds
iff amount > 0 and there is no active escrow" is false on the code. -/
theorem create_escrow_terminal_still_blocked_cex :
    create_escrow 0 50 1 2 3 4 5 escrow0 = .ok (stC8a, [.EscrowCreated 0 1 2 3 4 5 50]) ∧
    release_escrow 1 2 stC8a = .ok (stC8b, [.PaymentReleased 0 5, .ReceiverConfirmed 0]) ∧
    (stC8b.escrows 0).map (fun e => is_final_status e.status) = some true ∧
    stC8b.requestToEscrow 1 = some 0 ∧
    create_escrow 9 50 1 2 3 4 5 stC8b = .error .RequestAlreadyAssigned :=
  ⟨rfl, rfl, rfl, rfl, rfl⟩

/-- Claim C8 (amended): `create_escrow(req, off, driver, payer, amount)`
succeeds iff `amount > 0` and the `RequestToEscrow` index holds no entry for
`req` — i.e. no escrow was ever created for `req`, regardless of whether an
existing one is terminal; on success it allocates `NextEscrowId` (wrapping
increment), stores the record with status `Created`,
`created_at = now`, `deadline = now + ConfirmationTimeoutBlocks`, and indexes
`req → escrow_id`; on failure (`RequestAlreadyAssigned` when the index is
occupied, else `ZeroAmountNotAllowed`) nothing changes. -/
theorem create_escrow_characterization (now tb req off drv pay amt : Nat)
    (st : EscrowState) :
    ((∃ out, create_escrow now tb req off drv pay amt st = .ok out) ↔
      st.requestToEscrow req = none ∧ amt ≠ 0) ∧
    (∀ st' ev, create_escrow now tb req off drv pay amt st = .ok (st', ev) →
      st' = { nextEscrowId := (st.nextEscrowId + 1) % 2 ^ 64
              escrows := upd st.escrows st.nextEscrowId (some ⟨req, off, drv, pay, amt, .Created, now, now + tb⟩)
              requestToEscrow := upd st.requestToEscrow req (some st.nextEscrowId) } ∧
      ev = [.EscrowCreated st.nextEscrowId req off drv pay amt (now + tb)]) ∧
    ((st.requestToEscrow req).isSome →
      create_escrow now tb req off drv pay amt st = .error .RequestAlreadyAssigned) ∧
    (st.requestToEscrow req = none → amt = 0 →
      create_escrow now tb req off drv pay amt st = .error .ZeroAmountNotAllowed) := by
  refine ⟨?_, ?_, ?_, ?_⟩
  · constructor
    · rintro ⟨⟨st', ev⟩, h⟩
      obtain ⟨hq, ha, _, _⟩ := create_escrow_ok h
      exact ⟨hq, ha⟩
    · rintro ⟨hq, ha⟩
      exact ⟨_, create_escrow_of hq ha⟩
  · intro st' ev h
    obtain ⟨_, _, hst, hev⟩ := create_escrow_ok h
    exact ⟨hst, hev⟩
  · intro hq
    unfold create_escrow
    rw [if_pos hq]
  · intro hq ha
    unfold create_escrow
    rw [if_neg (by simp [hq]), if_pos ha]

/-- Witness for `create_escrow_characterization`: on an empty ledger, the
creation for request 1 with amount 5 succeeds. -/
theorem create_escrow_characterization_witness :
    ∃ out, create_escrow 0 50 1 2 3 4 5 escrow0 = .ok out :=
  (create_escrow_characterization 0 50 1 2 3 4 5 escrow0).1.mpr ⟨rfl, by decide⟩

/-- Claim C10: no escrow-pallet operation ever removes or overwrites a
`RequestToEscrow` entry — the lifecycle and release operations (including
the terminal ones) leave the index pointwise intact, `create_escrow` only
inserts a fresh entry at a previously absent key, and whenever the index
already holds an entry for a request (terminal escrow or not), any further
`create_escrow` for that request fails with `RequestAlreadyAssigned`. -/
theorem request_to_escrow_never_removed :
    (∀ who eid (st st' : EscrowState) ev, mark_picked_up who eid st = .ok (st', ev) →
        st'.requestToEscrow = st.requestToEscrow) ∧
    (∀ who eid (st st' : EscrowState) ev, mark_delivered who eid st = .ok (st', ev) →
        st'.requestToEscrow = st.requestToEscrow) ∧
    (∀ who eid (st st' : EscrowState) ev, confirm_received who eid st = .ok (st', ev) →
        st'.requestToEscrow = st.requestToEscrow) ∧
    (∀ req off (st st' : EscrowState) ev, release_escrow req off st = .ok (st', ev) →
        st'.requestToEscrow = st.requestToEscrow) ∧
    (∀ now eid (st st' : EscrowState) ev, force_timeout_release now eid st = .ok (st', ev) →
        st'.requestToEscrow = st.requestToEscrow) ∧
    (∀ now tb req off drv pay amt (st st' : EscrowState) ev,
        create_escrow now tb req off drv pay amt st = .ok (st', ev) →
        st.requestToEscrow req = none ∧
        st'.requestToEscrow = upd st.requestToEscrow req (some st.nextEscrowId)) ∧
    (∀ now tb req off drv pay amt (st : EscrowState) eid0,
        st.requestToEscrow req = some eid0 →
        create_escrow now tb req off drv pay amt st = .error .RequestAlreadyAssigned) := by
  refine ⟨?_, ?_, ?_, ?_, ?_, ?_, ?_⟩
  · intro who eid st st' ev h
    obtain ⟨e, _, _, _, hst, _⟩ := mark_picked_up_ok h
    rw [hst]
  · intro who eid st st' ev h
    obtain ⟨e, _, _, _, hst, _⟩ := mark_delivered_ok h
    rw [hst]
  · intro who eid st st' ev h
    obtain ⟨e, _, _, _, hst, _⟩ := confirm_received_ok h
    rw [hst]
  · intro req off st st' ev h
    obtain ⟨eid, e, _, _, _, _, hst, _⟩ := release_escrow_ok h
    rw [hst]
  · intro now eid st st' ev h
    obtain ⟨e, _, _, _, hst, _⟩ := force_timeout_release_ok h
    rw [hst]
  · intro now tb req off drv pay amt st st' ev h
    obtain ⟨hq, _, hst, _⟩ := create_escrow_ok h
    exact ⟨hq, by rw [hst]⟩
  · intro now tb req off drv pay amt st eid0 hq
    unfold create_escrow
    rw [if_pos (by simp [hq])]

/-- Witness for `request_to_escrow_never_removed`: after the terminal release
of `stC8b`, creating again for request 1 fails. -/
theorem request_to_escrow_never_removed_witness :
    create_escrow 7 50 1 2 3 4 9 stC8b = .error .RequestAlreadyAssigned :=
  request_to_escrow_never_removed.2.2.2.2.2.2 7 50 1 2 3 4 9 stC8b 0 rfl

/-- Concrete pair evaluation for the §8.1 scenario with positive window
start: agreed price `(500 + 1000) / 2 = 750`, penalty `750`, score
`1_000_000 − 750 = 999_250`. -/
theorem pairEval_reqA_offA :
    pairEval defaultParams hav0 reqA offA = some (750, 999250, 750) := by
  simp only [pairEval, agreed_price, defaultParams, hav0, reqA, offA, kind_to_bit,
    intervals_overlap_ms, rustRound]
  norm_num

/-- Cost table of the one-pair scenario. -/
theorem costTable_reqA_offA :
    costTable defaultParams hav0 [reqA] [offA] = [[750]] := by
  simp [costTable, pairEval_reqA_offA]

/-- Score table of the one-pair scenario. -/
theorem scoreTable_reqA_offA :
    scoreTable defaultParams hav0 [reqA] [offA] = [[999250]] := by
  simp [scoreTable, pairEval_reqA_offA]

/-- Price table of the one-pair scenario. -/
theorem priceTable_reqA_offA :
    priceTable defaultParams hav0 [reqA] [offA] = [[750]] := by
  simp [priceTable, pairEval_reqA_offA]

/-- Pair evaluation of the kind-5 request: the type filter is skipped
(`kind_to_bit 5 = 0`), every other filter passes, and the pair is feasible
with the same numbers as the §8.1 scenario. -/
theorem pairEval_reqKind5_offMask2 :
    pairEval defaultParams hav0 reqKind5 offMask2 = some (750, 999250, 750) := by
  simp only [pairEval, agreed_price, defaultParams, hav0, reqKind5, reqA, offMask2, offA,
    kind_to_bit, intervals_overlap_ms, rustRound]
  norm_num

/-- Claim C3 (counterexample): the request with `kind = 5` (outside `{0,1}`)
is matched by `compute_matches_for_market` against an offer whose
`types_mask = 2` — the pair is feasible and the produced proposal contains
the request — contradicting "such a request never appears in any match". -/
theorem kind_out_of_range_matched_cex :
    reqKind5.kind ≠ 0 ∧ reqKind5.kind ≠ 1 ∧
    compute_matches_for_market defaultParams hav0 [reqKind5] [offMask2] =
      (999250, [{ request_uuid := 105, offer_uuid := 201,
                  agreed_price_cents := 750, pair_score := 999250 }]) := by
  refine ⟨by decide, by decide, ?_⟩
  have hc : costTable defaultParams hav0 [reqKind5] [offMask2] = [[750]] := by
    simp [costTable, pairEval_reqKind5_offMask2]
  have hs : scoreTable defaultParams hav0 [reqKind5] [offMask2] = [[999250]] := by
    simp [scoreTable, pairEval_reqKind5_offMask2]
  have hp : priceTable defaultParams hav0 [reqKind5] [offMask2] = [[750]] := by
    simp [priceTable, pairEval_reqKind5_offMask2]
  simp only [compute_matches_for_market, hc, hs, hp]
  decide

/-- Claim C3 (amended): `kind_to_bit` maps every kind outside `{0, 1}` to the
bit value 0, and the worker's type filter is skipped whenever that bit is 0
(the check is `r_bit != 0 && (types_mask & r_bit) == 0`), so such a request
is treated as type-compatible with every offer — its evaluation does not
depend on the offer's `types_mask` at all — and can appear in matches. -/
theorem kind_out_of_range_type_check_skipped :
    (∀ k, k ≠ 0 → k ≠ 1 → kind_to_bit k = 0) ∧
    (∀ p hav (r : MarketRequest) (o : MarketOffer) mask',
      kind_to_bit r.kind = 0 →
      pairEval p hav r o = pairEval p hav r { o with types_mask := mask' }) := by
  constructor
  · intro k h0 h1
    match k with
    | 0 => exact absurd rfl h0
    | 1 => exact absurd rfl h1
    | Nat.succ (Nat.succ n) => rfl
  · intro p hav r o mask' hk
    unfold pairEval
    rw [hk]
    simp

/-- Witness for `kind_out_of_range_type_check_skipped`: kind 7 gets bit 0,
and the kind-5 request's evaluation against `offMask2` is unchanged when the
mask is replaced by 0. -/
theorem kind_out_of_range_witness :
    kind_to_bit 7 = 0 ∧
    pairEval defaultParams hav0 reqKind5 offMask2 =
      pairEval defaultParams hav0 reqKind5 { offMask2 with types_mask := 0 } :=
  ⟨kind_out_of_range_type_check_skipped.1 7 (by decide) (by decide),
   kind_out_of_range_type_check_skipped.2 defaultParams hav0 reqKind5 offMask2 0 rfl⟩

/-- Claim C9 (counterexample): on the spec's own §8.1 input — windows
`[0, 10000]` on both sides — with all parameters at their defaults
(`require_time_overlap = true`), the zero `window_start` makes
`intervals_overlap_ms` report "no guarantee", the single pair is filtered by
time, and `compute_matches_for_market` returns no matches and total score 0
instead of the claimed single match with score 999_250. -/
theorem single_match_scenario_zero_window_cex :
    compute_matches_for_market defaultParams hav0 [reqZeroWin] [offZeroWin] = (0, []) := by
  decide

/-- Claim C9 (amended): for every feasible pair the agreed price is
`max 1 (⌊(o.min_price_cents + r.max_price_cents) / 2⌋)` when
`r.max_price_cents > 0` and `max 1 o.min_price_cents` otherwise — in
particular it is always ≥ 1; and the §8.1 single-match scenario produces
exactly the match `(R1, O1, agreed 750, pair score 999_250)` with total score
999_250 — provided the windows do not contain the bound 0 (here
`[1, 10000]`), since with the default `require_time_overlap = true` a zero
window bound makes the pair time-infeasible and the result empty. -/
theorem agreed_price_formula_and_single_match :
    (∀ rm om : Int, 0 < rm →
        agreed_price rm om = max 1 ⌊((om : ℚ) + (rm : ℚ)) / 2⌋) ∧
    (∀ rm om : Int, ¬ 0 < rm → agreed_price rm om = max 1 om) ∧
    (∀ rm om : Int, 1 ≤ agreed_price rm om) ∧
    compute_matches_for_market defaultParams hav0 [reqA] [offA] =
      (999250, [{ request_uuid := 101, offer_uuid := 201,
                  agreed_price_cents := 750, pair_score := 999250 }]) := by
  refine ⟨?_, ?_, ?_, ?_⟩
  · intro rm om h
    unfold agreed_price
    rw [if_pos h]
    have h2 := Rat.floor_intCast_div_natCast (om + rm) 2
    push_cast at h2
    rw [h2]
  · intro rm om h
    unfold agreed_price
    rw [if_neg h]
  · intro rm om
    exact le_max_left ..
  · simp only [compute_matches_for_market, costTable_reqA_offA, scoreTable_reqA_offA,
      priceTable_reqA_offA]
    decide

/-- Witness for `agreed_price_formula_and_single_match`: the scenario's cap
1000 and minimum 500 give agreed price `max 1 ⌊1500 / 2⌋`. -/
theorem agreed_price_formula_witness :
    agreed_price 1000 500 = max 1 ⌊((500 : ℚ) + (1000 : ℚ)) / 2⌋ :=
  agreed_price_formula_and_single_match.1 1000 500 (by decide)

